import Mathlib

/-!
Shallow embedding of the convergence engine of `pkg/compose/convergence.go`
(compose-cli). Containers, service configurations and the reconciliation
functions are translated directly from the Go source; runtime side effects
(container create/stop/remove/rename, network connect/disconnect) are
modelled as explicit schedules of operations, and the observed-state
snapshot as a `List Container` that the schedules transform.
-/

set_option autoImplicit false

namespace Compose

/-- Constant `extLifecycle` from convergence.go. -/
def extLifecycle : String := "x-lifecycle"

/-- Constant `forceRecreate` from convergence.go. -/
def forceRecreate : String := "force_recreate"

/-- Modelled from the spec: the recreate policy constants of the external
`api` package (policy ∈ \x7bnever, if-changed/diverged, force\x7d). -/
def RecreateNever : String := "never"

/-- Modelled from the spec: the `force` recreate policy constant of the
external `api` package. -/
def RecreateForce : String := "force"

/-- Modelled from the spec: the `if-changed` recreate policy constant of the
external `api` package. -/
def RecreateDiverged : String := "diverged"

/-- Modelled from the spec: the runtime lifecycle state strings used by the
`switch container.State` dispatch (state ∈ \x7brunning, created, restarting,
exited, ...\x7d). -/
def ContainerRunning : String := "running"

/-- Modelled from the spec: the `created` lifecycle state string. -/
def ContainerCreated : String := "created"

/-- Modelled from the spec: the `restarting` lifecycle state string. -/
def ContainerRestarting : String := "restarting"

/-- Modelled from the spec: the `exited` lifecycle state string. -/
def ContainerExited : String := "exited"

/-- An observed container (moby.Container plus the inspect data the engine
reads): identity, the labels the engine consumes (config hash, container
number, service, one-off marker), lifecycle state, inspect status/exit code,
and per-network attachment aliases. -/
structure Container where
  id : String
  names : List String
  serviceLabel : String
  oneOffLabel : Bool
  configHashLabel : String
  numberLabel : String
  state : String
  inspectStatus : String
  inspectExitCode : Int
  networks : List (String × List String)
  deriving DecidableEq, Repr

/-- Per-network attachment configuration of a service (compose-go
`ServiceNetworkConfig`): user-declared aliases and static addresses. -/
structure ServiceNetworkConfig where
  aliases : List String
  ipv4Address : String
  ipv6Address : String
  deriving DecidableEq, Repr

/-- One `depends_on` entry: the wait condition. -/
structure DependsOnConfig where
  condition : String
  deriving DecidableEq, Repr

/-- The `deploy` section: an optional replica count. -/
structure DeployConfig where
  replicas : Option Int
  deriving DecidableEq, Repr

/-- The slice of compose-go `ServiceConfig` the convergence engine reads. -/
structure ServiceConfig where
  name : String
  containerName : String
  scale : Int
  deploy : Option DeployConfig
  dependsOn : List (String × DependsOnConfig)
  extensions : List (String × String)
  networks : List (String × Option ServiceNetworkConfig)
  platform : String
  links : List String
  externalLinks : List String
  deriving DecidableEq, Repr

/-- The slice of compose-go `Project` the engine reads: name, services and
the network map (network key to runtime network name). -/
structure Project where
  name : String
  services : List ServiceConfig
  networks : List (String × String)
  deriving DecidableEq, Repr

/-- Assoc-list lookup, the reading of a Go `map[string]string` entry. -/
def lookupAssoc (l : List (String × String)) (k : String) : Option String :=
  match l with
  | [] => none
  | p :: rest => if p.1 == k then some p.2 else lookupAssoc rest k

/-- Assoc-list update, the Go `m[k] = v` map assignment: replace the value
under an existing key, otherwise add the binding. -/
def setAssoc (l : List (String × String)) (k v : String) : List (String × String) :=
  if l.any (fun p => p.1 == k) then
    l.map (fun p => if p.1 == k then (k, v) else p)
  else l ++ [(k, v)]

/-- Modelled from the spec: the `isService` container filter (outside src);
a container belongs to a service when its service label names it. -/
def isService (name : String) (c : Container) : Bool :=
  c.serviceLabel == name

/-- Modelled from the spec: the `isNotOneOff` container filter (outside
src); one-off containers are excluded from lifecycle reconciliation. -/
def isNotOneOff (c : Container) : Bool :=
  !c.oneOffLabel

/-- The observed containers of a service: the snapshot filtered by service
name and with one-off containers excluded, as in `ensureScale`. -/
def actualOf (name : String) (observedState : List Container) : List Container :=
  (observedState.filter (isService name)).filter isNotOneOff

/-- `strconv.Atoi`: parse an optionally signed decimal integer, rejecting
the empty string and any non-digit character. -/
def atoi (s : String) : Except String Int :=
  let sign : Int := if s.data.head? = some '-' then -1 else 1
  let digits := if s.data.head? = some '-' ∨ s.data.head? = some '+' then
    s.data.drop 1 else s.data
  if digits.length = 0 ∨ ¬ (digits.all Char.isDigit) then
    .error ("strconv.Atoi: parsing \x22" ++ s ++ "\x22: invalid syntax")
  else
    .ok (sign * digits.foldl (fun a c => a * 10 + ((c.toNat : Int) - 48)) 0)

/-- The warning `doubledContainerNameWarning` formatted as in `getScale`. -/
def doubledContainerNameWarning (serviceName containerName : String) : String :=
  "WARNING: The \x22" ++ serviceName ++ "\x22 service is using the custom container name \x22"
    ++ containerName ++ "\x22. Docker requires each container to have a unique name. "
    ++ "Remove the custom name to scale the service.\n"

/-- The replica count `getScale` computes before its error check: 1 by
default, overridden by `deploy.replicas` when present, overridden in turn by
a nonzero `scale` field. -/
def effectiveScale (config : ServiceConfig) : Int :=
  let scale : Int := 1
  let scale := match config.deploy with
    | some d => match d.replicas with
      | some r => r
      | none => scale
    | none => scale
  if config.scale ≠ 0 then config.scale else scale

/-- `getScale`: the desired replica count and, exactly as in the Go source,
a pair of result and optional error — scale > 1 together with an explicit
container name yields scale -1 and the doubled-name warning. -/
def getScale (config : ServiceConfig) : Int × Option String :=
  let scale := effectiveScale config
  if scale > 1 ∧ config.containerName ≠ "" then
    (-1, some (doubledContainerNameWarning config.name config.containerName))
  else
    (scale, none)

/-- `getContainerName`: `{project}_{service}_{number}`, overridden wholesale
by an explicit container name. -/
def getContainerName (projectName : String) (service : ServiceConfig) (number : Int) : String :=
  let name := projectName ++ "_" ++ service.name ++ "_" ++ toString number
  if service.containerName ≠ "" then service.containerName else name

/-- The accumulator loop of `nextContainerNumber`: fold the running maximum
of the parsed container-number labels, failing on the first label that does
not parse. -/
def nextContainerNumberAux (containers : List Container) (mx : Int) : Except String Int :=
  match containers with
  | [] => .ok (mx + 1)
  | c :: rest =>
    match atoi c.numberLabel with
    | .error e => .error e
    | .ok n => nextContainerNumberAux rest (if n > mx then n else mx)

/-- `nextContainerNumber`: one more than the maximum (starting from 0) of
the containers' number labels. -/
def nextContainerNumber (containers : List Container) : Except String Int :=
  nextContainerNumberAux containers 0

/-- One scheduled container creation of the scale-up branch: the name and
container number passed to `createContainer`. -/
structure Creation where
  name : String
  number : Int
  deriving DecidableEq, Repr

/-- The result of `ensureScale`: the concurrent tasks it scheduled into the
errgroup (creations for missing replicas, stop+remove tasks for excess
containers) and the surviving `actual` list returned to the caller. -/
structure ScalePlan where
  creations : List Creation
  removals : List Container
  actual : List Container
  deriving DecidableEq, Repr

/-- `ensureScale`: filter the snapshot to the service's non-one-off
containers, compute the desired scale, then schedule one creation per
missing replica (numbers from `nextContainerNumber` upward) when below
scale, or stop+remove tasks for the tail beyond scale when above it.  A
negative scale reaching the removal loop indexes `actual` out of range in
the Go source (a panic), modelled as an error. -/
def ensureScale (projectName : String) (service : ServiceConfig)
    (observedState : List Container) : Except String ScalePlan :=
  match getScale service with
  | (_, some e) => .error e
  | (scale, none) =>
    if ((actualOf service.name observedState).length : Int) < scale then
      match nextContainerNumber (actualOf service.name observedState) with
      | .error e => .error e
      | .ok next =>
        .ok { creations :=
                (List.range (scale - ((actualOf service.name observedState).length : Int)).toNat).map
                  (fun (i : Nat) =>
                    { name := getContainerName projectName service (next + (i : Int)),
                      number := next + (i : Int) }),
              removals := [], actual := actualOf service.name observedState }
    else if ((actualOf service.name observedState).length : Int) > scale then
      if scale < 0 then
        .error "panic: runtime error: index out of range"
      else
        .ok { creations := [],
              removals := (actualOf service.name observedState).drop scale.toNat,
              actual := (actualOf service.name observedState).take scale.toNat }
    else
      .ok { creations := [], removals := [],
            actual := actualOf service.name observedState }

/-- Modelled from the spec: `getCanonicalContainerName` (outside src) —
the canonical runtime name of an observed container, its first name with the
leading slash stripped. -/
def getCanonicalContainerName (c : Container) : String :=
  (c.names.headD "").drop 1

/-- `getContainerProgressName`: the event key `Container <name>`. -/
def getContainerProgressName (c : Container) : String :=
  "Container " ++ getCanonicalContainerName c

/-- The per-container outcome of the non-`never` branch of `ensureService`:
schedule a recreation, emit a running/created event, do nothing
(created/restarting states), or schedule a start (default branch). -/
inductive ContainerOp where
  | recreateOp (c : Container)
  | eventRunning (name : String)
  | eventCreated (name : String)
  | noop (c : Container)
  | startOp (c : Container)
  deriving DecidableEq, Repr

/-- The recreate-vs-reuse decision of `ensureService` for one retained
container: recreate when the persisted config hash diverges from the
expected hash, the policy is `force`, or the service carries the
`x-lifecycle = force_recreate` cascade flag; otherwise dispatch on the
lifecycle state. -/
def containerAction (service : ServiceConfig) (recreate expected : String)
    (c : Container) : ContainerOp :=
  let diverged := c.configHashLabel ≠ expected
  if diverged ∨ recreate = RecreateForce ∨
      lookupAssoc service.extensions extLifecycle = some forceRecreate then
    .recreateOp c
  else if c.state = ContainerRunning then .eventRunning (getContainerProgressName c)
  else if c.state = ContainerCreated then .noop c
  else if c.state = ContainerRestarting then .noop c
  else if c.state = ContainerExited then .eventCreated (getContainerProgressName c)
  else .startOp c

/-- The per-container operations `ensureService` performs after scaling:
none at all under policy `never` (it returns right after `ensureScale`),
otherwise one `containerAction` per retained container against the freshly
computed service hash. -/
def serviceActions (hash : ServiceConfig → String) (projectName : String)
    (service : ServiceConfig) (observedState : List Container)
    (recreate : String) : Except String (List ContainerOp) :=
  match ensureScale projectName service observedState with
  | .error e => .error e
  | .ok plan =>
    if recreate = RecreateNever then .ok []
    else .ok (plan.actual.map (containerAction service recreate (hash service)))

/-- The outcomes of the concurrent tasks scheduled into the errgroup: for
each creation, stop+remove, recreation or start task, `none` for success or
`some e` for the error the task returned. -/
structure TaskEnv where
  createErr : Creation → Option String
  stopRemoveErr : Container → Option String
  recreateErr : Container → Option String
  startErr : Container → Option String

/-- The error a scheduled per-container operation reports to the errgroup
(events and no-ops never fail). -/
def opErr (env : TaskEnv) (op : ContainerOp) : Option String :=
  match op with
  | .recreateOp c => env.recreateErr c
  | .startOp c => env.startErr c
  | _ => none

/-- `ensureService`'s returned error: an `ensureScale` error is returned at
once; under policy `never` it returns success without awaiting the task
group; otherwise `eg.Wait()` surfaces the first error among all scheduled
tasks. -/
def ensureService (hash : ServiceConfig → String) (env : TaskEnv)
    (projectName : String) (service : ServiceConfig)
    (observedState : List Container) (recreate : String) : Except String Unit :=
  match ensureScale projectName service observedState with
  | .error e => .error e
  | .ok plan =>
    if recreate = RecreateNever then .ok ()
    else
      let actions := plan.actual.map (containerAction service recreate (hash service))
      let errs := plan.creations.filterMap env.createErr
        ++ plan.removals.filterMap env.stopRemoveErr
        ++ actions.filterMap (opErr env)
      match errs with
      | [] => .ok ()
      | e :: _ => .error e

/-- One runtime-client call issued by the engine. -/
inductive RuntimeOp where
  | stopC (id : String)
  | renameC (id : String) (newName : String)
  | createC (name : String) (number : Int)
  | removeC (id : String)
  deriving DecidableEq, Repr

/-- `recreateContainer` as the ordered schedule of runtime calls it issues:
stop the old container, rename it to `<shortID>_<canonical name>`, then —
once the number label has parsed — create the replacement under the
original canonical name and number, and remove the old container.  A label
that fails to parse aborts after the rename with that error. -/
def recreateContainerOps (container : Container) : List RuntimeOp × Option String :=
  let name := getCanonicalContainerName container
  let tmpName := (container.id.take 12) ++ "_" ++ name
  match atoi container.numberLabel with
  | .error e => ([.stopC container.id, .renameC container.id tmpName], some e)
  | .ok number =>
    ([.stopC container.id, .renameC container.id tmpName,
      .createC name number, .removeC container.id], none)

/-- Modelled from the spec: the snapshot after a completed recreation — the
replacement was added (`cState.Add` inside `createMobyContainer`) and the
removed container's entry is gone from the snapshot. -/
def applyRecreate (observedState : List Container) (old replacement : Container) :
    List Container :=
  (observedState ++ [replacement]).filter (fun c => !(c.id == old.id))

/-- Modelled from the spec: the external compose-go `GetDependencies`,
the names of the services a service directly depends on. -/
def GetDependencies (s : ServiceConfig) : List String :=
  s.dependsOn.map (fun p => p.1)

/-- `setDependentLifecycle`: set the lifecycle extension on every service
that directly depends on the given service. -/
def setDependentLifecycle (project : Project) (service : String)
    (strategy : String) : Project :=
  { project with
    services := project.services.map (fun s =>
      if (GetDependencies s).contains service then
        { s with extensions := setAssoc s.extensions extLifecycle strategy }
      else s) }

/-- The scan inside `isServiceCompleted`: return the status of the first
container whose inspected state is `exited`, with its exit code. -/
def isServiceCompletedAux (containers : List Container) : Bool × Int :=
  match containers with
  | [] => (false, 0)
  | c :: rest =>
    if c.inspectStatus = "exited" then (true, c.inspectExitCode)
    else isServiceCompletedAux rest

/-- `isServiceCompleted`: over the dependency's non-one-off containers
(stopped ones included), whether some container has exited and the exit
code of the first such container. -/
def isServiceCompleted (projectContainers : List Container) (dep : String) : Bool × Int :=
  isServiceCompletedAux (actualOf dep projectContainers)

/-- The outcome of one polling iteration of a dependency wait. -/
inductive WaitStep where
  | done
  | failed (msg : String)
  | continuePolling
  deriving DecidableEq, Repr

/-- One polling iteration of `waitDependencies` for a
`completed-successfully` condition: no exited container keeps polling, an
exited container with code 0 succeeds, a nonzero code fails with the error
naming the dependency and the code. -/
def completedWaitStep (projectContainers : List Container) (dep : String) : WaitStep :=
  let r := isServiceCompleted projectContainers dep
  if r.1 then
    if r.2 ≠ 0 then
      .failed ("service \x22" ++ dep ++ "\x22 didn't completed successfully: exit "
        ++ toString r.2)
    else .done
  else .continuePolling

/-- `shortIDAliasExists`: whether any alias equals the container's
12-character short identifier. -/
def shortIDAliasExists (containerID : String) (aliases : List String) : Bool :=
  aliases.any (fun a => a == containerID.take 12)

/-- The alias list `createMobyContainer` builds for one network: the
container-number-based name always, plus — when alias propagation is
enabled — the bare service name and the user-declared per-network
aliases. -/
def desiredAliases (projectName : String) (service : ServiceConfig) (number : Int)
    (cfg : Option ServiceNetworkConfig) (useNetworkAliases : Bool) : List String :=
  let aliases := [getContainerName projectName service number]
  if useNetworkAliases then
    aliases ++ [service.name] ++ (match cfg with
      | some c => c.aliases
      | none => [])
  else aliases

/-- What `createMobyContainer`'s network loop does for one network. -/
inductive NetworkAction where
  | skip
  | reconnect (aliases : List String)
  | connectFresh (aliases : List String)
  deriving DecidableEq, Repr

/-- The per-network reconciliation of `createMobyContainer`: when the
created container is already attached, skip if the short-id alias exists
among the attachment's aliases, otherwise disconnect and reconnect with the
desired aliases; when not attached, connect fresh. -/
def networkReconcileAction (createdId : String)
    (attachment : Option (List String)) (aliases : List String) : NetworkAction :=
  match attachment with
  | some attachedAliases =>
    if shortIDAliasExists createdId attachedAliases then .skip
    else .reconnect aliases
  | none => .connectFresh aliases

/-- Modelled from the spec: the container the engine creates for one
scheduled creation (`getCreateOptions` is outside src): it carries the
canonical name, the service label, the number label of its creation, the
freshly computed config hash, is not one-off, and starts `created`. -/
def mkCreatedContainer (service : ServiceConfig) (hash : String) (cr : Creation)
    (id : String) : Container :=
  { id := id, names := ["/" ++ cr.name], serviceLabel := service.name,
    oneOffLabel := false, configHashLabel := hash,
    numberLabel := toString cr.number, state := ContainerCreated,
    inspectStatus := ContainerCreated, inspectExitCode := 0, networks := [] }

/-- Modelled from the spec: the snapshot after the task group of an
`ensureScale` plan has run to completion — stopped-and-removed containers
leave the snapshot and each scheduled creation adds its container
(`cState.Add`), with runtime-assigned fresh ids. -/
def applyScalePlan (service : ServiceConfig) (hash : String) (newId : Int → String)
    (observedState : List Container) (plan : ScalePlan) : List Container :=
  (observedState.filter (fun c => !(plan.removals.any (fun r => r.id == c.id))))
    ++ plan.creations.map (fun cr => mkCreatedContainer service hash cr (newId cr.number))

/-- A service with plain scale 3 and no explicit container name. -/
def webScale3 : ServiceConfig :=
  { name := "web", containerName := "", scale := 3, deploy := none,
    dependsOn := [], extensions := [], networks := [], platform := "",
    links := [], externalLinks := [] }

/-- A running, non-one-off `web` container with the given id and number
label. -/
def webContainer (id number : String) : Container :=
  { id := id, names := ["/proj_web_" ++ number], serviceLabel := "web",
    oneOffLabel := false, configHashLabel := "h", numberLabel := number,
    state := "running", inspectStatus := "running", inspectExitCode := 0,
    networks := [] }

/-- A service asking for 2 replicas under an explicit container name. -/
def namedScale2 : ServiceConfig :=
  { name := "web", containerName := "fixed", scale := 2, deploy := none,
    dependsOn := [], extensions := [], networks := [], platform := "",
    links := [], externalLinks := [] }

/-- A service whose deploy section asks for 0 replicas. -/
def replicasZeroService : ServiceConfig :=
  { name := "db", containerName := "", scale := 0,
    deploy := some { replicas := some 0 }, dependsOn := [], extensions := [],
    networks := [], platform := "", links := [], externalLinks := [] }

/-- A container about to be recreated, with a 64-character-style id and
number label 2. -/
def recreatedContainer : Container :=
  { id := "0123456789abcdef", names := ["/proj_web_2"], serviceLabel := "web",
    oneOffLabel := false, configHashLabel := "old", numberLabel := "2",
    state := "running", inspectStatus := "running", inspectExitCode := 0,
    networks := [] }

/-- A task environment in which every scheduled creation fails. -/
def failingEnv : TaskEnv :=
  { createErr := fun _ => some "boom", stopRemoveErr := fun _ => none,
    recreateErr := fun _ => none, startErr := fun _ => none }

/-- A constant config-hash collaborator. -/
def constHash : ServiceConfig → String := fun _ => "h"

/-- A service with plain scale 2. -/
def webScale2 : ServiceConfig :=
  { name := "web", containerName := "", scale := 2, deploy := none,
    dependsOn := [], extensions := [], networks := [], platform := "",
    links := [], externalLinks := [] }

/-- The plan `ensureScale` produces for `webScale2` on an empty snapshot. -/
def webScale2Plan : ScalePlan :=
  { creations := [{ name := "proj_web_1", number := 1 },
                  { name := "proj_web_2", number := 2 }],
    removals := [], actual := [] }

/-- A `db` container that exited with code 1. -/
def dbExit1 : Container :=
  { id := "a1", names := ["/proj_db_1"], serviceLabel := "db",
    oneOffLabel := false, configHashLabel := "h", numberLabel := "1",
    state := "exited", inspectStatus := "exited", inspectExitCode := 1,
    networks := [] }

/-- A `db` container that exited with code 0. -/
def dbExit0 : Container :=
  { id := "a2", names := ["/proj_db_2"], serviceLabel := "db",
    oneOffLabel := false, configHashLabel := "h", numberLabel := "2",
    state := "exited", inspectStatus := "exited", inspectExitCode := 0,
    networks := [] }

/-- A network attachment holding the short-id alias next to another one. -/
def attachedAliasesCex : List String := ["0123456789ab", "extra"]

/-- A dependency-free `db` service. -/
def dbService : ServiceConfig :=
  { name := "db", containerName := "", scale := 0, deploy := none,
    dependsOn := [], extensions := [], networks := [], platform := "",
    links := [], externalLinks := [] }

/-- A `web` service depending on `db`. -/
def webDependent : ServiceConfig :=
  { name := "web", containerName := "", scale := 0, deploy := none,
    dependsOn := [("db", { condition := "service_started" })],
    extensions := [], networks := [], platform := "", links := [],
    externalLinks := [] }

/-- The two-service project `db` plus its dependent `web`. -/
def projAB : Project :=
  { name := "proj", services := [dbService, webDependent], networks := [] }

/-- `webDependent` after the cascade flag has been set. -/
def webDependentFlagged : ServiceConfig :=
  { webDependent with extensions := [(extLifecycle, forceRecreate)] }

/-- A service with plain scale 1. -/
def webScale1 : ServiceConfig :=
  { name := "web", containerName := "", scale := 1, deploy := none,
    dependsOn := [], extensions := [], networks := [], platform := "",
    links := [], externalLinks := [] }

/-- A running `web` container whose persisted config hash is stale. -/
def staleWeb : Container :=
  { id := "ccc", names := ["/proj_web_1"], serviceLabel := "web",
    oneOffLabel := false, configHashLabel := "old", numberLabel := "1",
    state := "running", inspectStatus := "running", inspectExitCode := 0,
    networks := [] }

/-- The plan `ensureScale` produces for `webScale1` over `[staleWeb]`. -/
def staleWebPlan : ScalePlan :=
  { creations := [], removals := [], actual := [staleWeb] }

/-- The snapshot after containers 1..3 existed and container 2 was
removed: containers numbered 1 and 3 remain. -/
def webAfterRemoval : List Container :=
  [webContainer "aaa" "1", webContainer "bbb" "3"]

/-- The parsed container numbers of `webAfterRemoval`. -/
def webNumOf : Container → Int := fun c => if c.numberLabel = "1" then 1 else 3


/-- The scale-up plan of `webScale3` over `webAfterRemoval`. -/
def webUpPlan : ScalePlan :=
  { creations := [{ name := "proj_web_4", number := 4 }],
    removals := [], actual := webAfterRemoval }

/-- A runtime id assignment for freshly created containers. -/
def newIdFn : Int → String := fun n => "id" ++ toString n

end Compose

deriving instance DecidableEq for Except

namespace Compose

/-- C3: for every service whose computed replica count exceeds 1 while an
explicit container name is set, `getScale` reports the doubled-name error
(with scale -1) and `ensureScale` returns that error before scheduling any
creation. -/
theorem ensureScale_rejects_scaled_container_name
    (pn : String) (service : ServiceConfig) (st : List Container)
    (h1 : effectiveScale service > 1) (h2 : service.containerName ≠ "") :
    getScale service =
      (-1, some (doubledContainerNameWarning service.name service.containerName)) ∧
    ensureScale pn service st =
      .error (doubledContainerNameWarning service.name service.containerName) := by
  have hg : getScale service =
      (-1, some (doubledContainerNameWarning service.name service.containerName)) := by
    unfold getScale
    simp [h1, h2]
  refine ⟨hg, ?_⟩
  unfold ensureScale
  rw [hg]

/-- C3 witness: `namedScale2` (scale 2, container name `fixed`) is rejected
on any snapshot. -/
theorem ensureScale_rejects_scaled_container_name_witness :
    effectiveScale namedScale2 > 1 ∧ namedScale2.containerName ≠ "" ∧
    (getScale namedScale2 =
      (-1, some (doubledContainerNameWarning namedScale2.name namedScale2.containerName)) ∧
     ensureScale "proj" namedScale2 [] =
      .error (doubledContainerNameWarning namedScale2.name namedScale2.containerName)) :=
  ⟨by decide, by decide,
   ensureScale_rejects_scaled_container_name "proj" namedScale2 [] (by decide) (by decide)⟩

/-- C4 counterexample: a deploy-replicas field of 0 computes scale 0, yet
`getScale` returns it with no error — refuting that a computed scale of 0
is an error and that a successful result is at least 1. -/
theorem getScale_zero_without_error_cex :
    effectiveScale replicasZeroService = 0 ∧
    getScale replicasZeroService = (0, none) := by decide

/-- C4 amended: `getScale` returns an error exactly when the computed scale
exceeds 1 and an explicit container name is set; otherwise it returns the
computed scale (which may be 0 or negative) with no error. -/
theorem getScale_error_iff_name_collision (config : ServiceConfig) :
    ((getScale config).2 ≠ none ↔
      effectiveScale config > 1 ∧ config.containerName ≠ "") ∧
    ((getScale config).2 = none → (getScale config).1 = effectiveScale config) := by
  unfold getScale
  by_cases h : effectiveScale config > 1 ∧ config.containerName ≠ ""
  · simp [h]
  · simp [h]

/-- C4 amended witness: the characterization applied to the zero-replica
service. -/
theorem getScale_error_iff_name_collision_witness :
    ((getScale replicasZeroService).2 ≠ none ↔
      effectiveScale replicasZeroService > 1 ∧ replicasZeroService.containerName ≠ "") ∧
    ((getScale replicasZeroService).2 = none →
      (getScale replicasZeroService).1 = effectiveScale replicasZeroService) :=
  getScale_error_iff_name_collision replicasZeroService

/-- C6: a successfully recreated container is stopped, renamed to its
12-character short id joined to its canonical name, replaced by a creation
under the original canonical name and original number label, and removed —
after which its id no longer appears in the snapshot. -/
theorem recreate_preserves_identity (container : Container) (n : Int)
    (h : atoi container.numberLabel = .ok n) :
    recreateContainerOps container =
      ([.stopC container.id,
        .renameC container.id
          ((container.id.take 12) ++ "_" ++ getCanonicalContainerName container),
        .createC (getCanonicalContainerName container) n,
        .removeC container.id], none) ∧
    ∀ (st : List Container) (replacement : Container),
      container.id ∉ (applyRecreate st container replacement).map (fun c => c.id) := by
  constructor
  · unfold recreateContainerOps
    rw [h]
  · intro st replacement
    simp [applyRecreate, List.mem_map, List.mem_filter]

/-- C6 witness: the concrete recreated container keeps name `proj_web_2`
and number 2, and its id leaves the snapshot. -/
theorem recreate_preserves_identity_witness :
    atoi recreatedContainer.numberLabel = .ok 2 ∧
    (recreateContainerOps recreatedContainer =
      ([.stopC recreatedContainer.id,
        .renameC recreatedContainer.id
          ((recreatedContainer.id.take 12) ++ "_" ++ getCanonicalContainerName recreatedContainer),
        .createC (getCanonicalContainerName recreatedContainer) 2,
        .removeC recreatedContainer.id], none) ∧
     ∀ (st : List Container) (replacement : Container),
       recreatedContainer.id ∉ (applyRecreate st recreatedContainer replacement).map (fun c => c.id)) :=
  ⟨by decide, recreate_preserves_identity recreatedContainer 2 (by decide)⟩

/-- C10: under recreate policy `never`, `ensureService` returns success
directly after `ensureScale` without awaiting the task group, so failures of
the scheduled creation tasks are never surfaced. -/
theorem recreate_never_ignores_task_failures
    (hash : ServiceConfig → String) (env : TaskEnv) (pn : String)
    (service : ServiceConfig) (st : List Container) (plan : ScalePlan)
    (h1 : ensureScale pn service st = .ok plan)
    (_hfail : ∃ cr ∈ plan.creations, env.createErr cr ≠ none) :
    ensureService hash env pn service st RecreateNever = .ok () := by
  unfold ensureService
  rw [h1]
  simp

/-- C10 witness: scaling `webScale2` up from an empty snapshot schedules two
creations; with every creation failing, the `never` policy still reports
success. -/
theorem recreate_never_ignores_task_failures_witness :
    ensureScale "proj" webScale2 [] = .ok webScale2Plan ∧
    (∃ cr ∈ webScale2Plan.creations, failingEnv.createErr cr ≠ none) ∧
    ensureService constHash failingEnv "proj" webScale2 [] RecreateNever = .ok () :=
  ⟨by decide, by decide,
   recreate_never_ignores_task_failures constHash failingEnv "proj" webScale2 []
     webScale2Plan (by decide) (by decide)⟩

/-- The scan of `isServiceCompleted` returns the first exited container in
listing order. -/
theorem isServiceCompletedAux_eq_find (l : List Container) :
    isServiceCompletedAux l =
      match l.find? (fun c => c.inspectStatus == "exited") with
      | none => (false, 0)
      | some c => (true, c.inspectExitCode) := by
  induction l with
  | nil => rfl
  | cons c rest ih =>
    by_cases h : c.inspectStatus = "exited"
    · simp [isServiceCompletedAux, h, List.find?]
    · have hb : (c.inspectStatus == "exited") = false := by simp [h]
      simp [isServiceCompletedAux, h, List.find?, hb, ih]

/-- C8 counterexample: with a `db` container exited nonzero listed before
one exited 0, the wait fails even though some non-one-off container of
`db` has exited with code 0 — refuting that an exit-0 container makes the
wait succeed. -/
theorem completedWait_some_zero_exit_cex :
    (∃ c ∈ actualOf "db" [dbExit1, dbExit0],
      c.inspectStatus = "exited" ∧ c.inspectExitCode = 0) ∧
    completedWaitStep [dbExit1, dbExit0] "db" =
      .failed "service \x22db\x22 didn't completed successfully: exit 1" ∧
    completedWaitStep [dbExit1, dbExit0] "db" ≠ .done := by decide

/-- C8 amended: a `completed-successfully` polling step is decided by the
first exited non-one-off container of the dependency in listing order —
exit code 0 succeeds, a nonzero code fails with the error naming the
dependency and the code, and with no exited container it keeps polling. -/
theorem completedWaitStep_first_exited (projectContainers : List Container)
    (dep : String) :
    completedWaitStep projectContainers dep =
      match (actualOf dep projectContainers).find?
          (fun c => c.inspectStatus == "exited") with
      | none => .continuePolling
      | some c =>
        if c.inspectExitCode ≠ 0 then
          .failed ("service \x22" ++ dep ++ "\x22 didn't completed successfully: exit "
            ++ toString c.inspectExitCode)
        else .done := by
  simp only [completedWaitStep, isServiceCompleted, isServiceCompletedAux_eq_find]
  cases hf : (actualOf dep projectContainers).find?
      (fun c => c.inspectStatus == "exited") with
  | none => simp
  | some c => by_cases hc : c.inspectExitCode ≠ 0 <;> simp [hc]

/-- C9 counterexample: an attachment whose aliases are the short id plus a
second alias is skipped, although its only alias is not the short id —
refuting that reconciliation is skipped exactly in the sole-short-id-alias
case. -/
theorem networkReconcile_skip_without_sole_alias_cex :
    attachedAliasesCex ≠ ["0123456789abcdef".take 12] ∧
    ("0123456789abcdef".take 12) ∈ attachedAliasesCex ∧
    networkReconcileAction "0123456789abcdef" (some attachedAliasesCex)
      (desiredAliases "proj" webScale3 1 none true) = .skip := by decide

/-- C9 amended: for a network the created container is already attached to,
reconciliation is skipped exactly when the attachment's aliases contain the
container's 12-character short id; otherwise the container is disconnected
and reconnected with the full desired alias set. -/
theorem networkReconcile_skip_iff (createdId : String)
    (attachedAliases : List String) (pn : String) (service : ServiceConfig)
    (number : Int) (cfg : Option ServiceNetworkConfig)
    (useNetworkAliases : Bool) :
    (networkReconcileAction createdId (some attachedAliases)
        (desiredAliases pn service number cfg useNetworkAliases) = .skip ↔
      (createdId.take 12) ∈ attachedAliases) ∧
    ((createdId.take 12) ∉ attachedAliases →
      networkReconcileAction createdId (some attachedAliases)
        (desiredAliases pn service number cfg useNetworkAliases) =
        .reconnect (desiredAliases pn service number cfg useNetworkAliases)) := by
  have hs : shortIDAliasExists createdId attachedAliases = true ↔
      (createdId.take 12) ∈ attachedAliases := by
    simp [shortIDAliasExists, List.any_eq_true]
  by_cases h : (createdId.take 12) ∈ attachedAliases
  · have hb : shortIDAliasExists createdId attachedAliases = true := hs.mpr h
    exact ⟨by simp [networkReconcileAction, hb, h], fun hn => absurd h hn⟩
  · have hb : shortIDAliasExists createdId attachedAliases = false := by
      cases hb2 : shortIDAliasExists createdId attachedAliases
      · rfl
      · exact absurd (hs.mp hb2) h
    exact ⟨by simp [networkReconcileAction, hb, h], fun _ => by
      simp [networkReconcileAction, hb]⟩

/-- C9 amended witness: the characterization at the concrete attachment
whose aliases include the short id. -/
theorem networkReconcile_skip_iff_witness :
    (networkReconcileAction "0123456789abcdef" (some attachedAliasesCex)
        (desiredAliases "proj" webScale3 1 none true) = .skip ↔
      ("0123456789abcdef".take 12) ∈ attachedAliasesCex) ∧
    (("0123456789abcdef".take 12) ∉ attachedAliasesCex →
      networkReconcileAction "0123456789abcdef" (some attachedAliasesCex)
        (desiredAliases "proj" webScale3 1 none true) =
        .reconnect (desiredAliases "proj" webScale3 1 none true)) :=
  networkReconcile_skip_iff "0123456789abcdef" attachedAliasesCex "proj"
    webScale3 1 none true

/-- Updating an assoc list in place finds the updated value when the key
was already bound. -/
theorem lookupAssoc_map_set (l : List (String × String)) (k v : String)
    (h : l.any (fun p => p.1 == k) = true) :
    lookupAssoc (l.map (fun p => if p.1 == k then (k, v) else p)) k = some v := by
  induction l with
  | nil => simp at h
  | cons p rest ih =>
    rw [List.map_cons]
    by_cases hp : p.1 = k
    · have hfp : (if p.1 == k then (k, v) else p) = (k, v) := by simp [hp]
      rw [hfp]
      simp [lookupAssoc]
    · have hb : (p.1 == k) = false := by simp [hp]
      have hfp : (if p.1 == k then (k, v) else p) = p := by simp [hb]
      have hrest : rest.any (fun q => q.1 == k) = true := by
        rw [List.any_cons, hb] at h
        simpa using h
      have hgoal := ih hrest
      rw [hfp]
      simp only [lookupAssoc, hb, Bool.false_eq_true, if_false]
      exact hgoal

/-- Appending a fresh binding to an assoc list finds it when the key was
not bound before. -/
theorem lookupAssoc_append_new (l : List (String × String)) (k v : String)
    (h : l.any (fun p => p.1 == k) = false) :
    lookupAssoc (l ++ [(k, v)]) k = some v := by
  induction l with
  | nil => simp [lookupAssoc]
  | cons p rest ih =>
    rw [List.any_cons] at h
    have hb : (p.1 == k) = false := by
      cases hx : (p.1 == k)
      · rfl
      · rw [hx] at h; simp at h
    have hrest : rest.any (fun p => p.1 == k) = false := by
      rw [hb] at h; simpa using h
    simp [lookupAssoc, hb, ih hrest]

/-- The Go map assignment `m[k] = v` makes `m[k]` read back `v`. -/
theorem lookupAssoc_setAssoc (l : List (String × String)) (k v : String) :
    lookupAssoc (setAssoc l k v) k = some v := by
  unfold setAssoc
  by_cases h : l.any (fun p => p.1 == k) = true
  · rw [if_pos h]
    exact lookupAssoc_map_set l k v h
  · have hf : l.any (fun p => p.1 == k) = false := by
      cases hx : l.any (fun p => p.1 == k)
      · rfl
      · exact absurd hx h
    rw [if_neg (by simp [hf])]
    exact lookupAssoc_append_new l k v hf

/-- A container action whose condition does not hold is never a
recreation; conversely a recreation pins down the container and the
condition. -/
theorem containerAction_eq_recreate (service : ServiceConfig)
    (recreate expected : String) (c c' : Container)
    (h : containerAction service recreate expected c' = .recreateOp c) :
    c' = c ∧ (c'.configHashLabel ≠ expected ∨ recreate = RecreateForce ∨
      lookupAssoc service.extensions extLifecycle = some forceRecreate) := by
  simp only [containerAction] at h
  split_ifs at h with hcond h1 h2 h3 h4
  exact ⟨by simpa using h, hcond⟩

/-- C7: after `setDependentLifecycle` runs for a recreated service, every
service that directly depends on it carries the force-recreate cascade
flag, and the recreate decision for any of that dependent's containers is
a recreation regardless of its config hash or the policy. -/
theorem cascade_flag_forces_dependent_recreate
    (project : Project) (depService : String) (s : ServiceConfig)
    (hs : s ∈ (setDependentLifecycle project depService forceRecreate).services)
    (hdep : depService ∈ GetDependencies s) :
    lookupAssoc s.extensions extLifecycle = some forceRecreate ∧
    ∀ (recreate expected : String) (c : Container),
      containerAction s recreate expected c = .recreateOp c := by
  have hflag : lookupAssoc s.extensions extLifecycle = some forceRecreate := by
    simp only [setDependentLifecycle, List.mem_map] at hs
    obtain ⟨s0, hs0, heq⟩ := hs
    by_cases hd : (GetDependencies s0).contains depService = true
    · rw [if_pos hd] at heq
      rw [← heq]
      exact lookupAssoc_setAssoc s0.extensions extLifecycle forceRecreate
    · rw [if_neg hd] at heq
      subst heq
      exact absurd (List.elem_eq_true_of_mem hdep) hd
  refine ⟨hflag, fun recreate expected c => ?_⟩
  simp only [containerAction]
  rw [if_pos (Or.inr (Or.inr hflag))]

/-- C7 witness: in the two-service project, after the cascade for `db`,
the dependent `web` service carries the flag and each of its containers is
recreated. -/
theorem cascade_flag_forces_dependent_recreate_witness :
    webDependentFlagged ∈ (setDependentLifecycle projAB "db" forceRecreate).services ∧
    "db" ∈ GetDependencies webDependentFlagged ∧
    (lookupAssoc webDependentFlagged.extensions extLifecycle = some forceRecreate ∧
     ∀ (recreate expected : String) (c : Container),
       containerAction webDependentFlagged recreate expected c = .recreateOp c) :=
  ⟨by decide, by decide,
   cascade_flag_forces_dependent_recreate projAB "db" webDependentFlagged
     (by decide) (by decide)⟩

/-- C5: under policy `never` the convergence step performs no
per-container operation, and under any other policy a retained container is
recreated if and only if its persisted config hash differs from the fresh
service hash, the policy is `force`, or the service carries the
force-recreate cascade flag. -/
theorem recreate_decision_policy
    (hash : ServiceConfig → String) (pn : String) (service : ServiceConfig)
    (st : List Container) (recreate : String) (plan : ScalePlan)
    (acts : List ContainerOp)
    (hok : ensureScale pn service st = .ok plan)
    (hacts : serviceActions hash pn service st recreate = .ok acts) :
    (recreate = RecreateNever → acts = []) ∧
    (recreate ≠ RecreateNever → ∀ c ∈ plan.actual,
      (ContainerOp.recreateOp c ∈ acts ↔
        (c.configHashLabel ≠ hash service ∨ recreate = RecreateForce ∨
         lookupAssoc service.extensions extLifecycle = some forceRecreate))) := by
  unfold serviceActions at hacts
  rw [hok] at hacts
  have hacts2 : (if recreate = RecreateNever then (Except.ok [] : Except String (List ContainerOp))
      else .ok (plan.actual.map (containerAction service recreate (hash service)))) = .ok acts :=
    hacts
  constructor
  · intro hn
    rw [if_pos hn] at hacts2
    injection hacts2 with h
    exact h.symm
  · intro hn c hc
    rw [if_neg hn] at hacts2
    injection hacts2 with h
    subst h
    constructor
    · intro hmem
      rcases List.mem_map.mp hmem with ⟨c2, hc2, heq⟩
      rcases containerAction_eq_recreate service recreate (hash service) c c2 heq with
        ⟨rfl, hcond⟩
      exact hcond
    · intro hcond
      refine List.mem_map.mpr ⟨c, hc, ?_⟩
      simp only [containerAction]
      rw [if_pos hcond]

/-- C5 witness: the stale-hash `web` container is recreated under policy
`diverged`, and its recreation is equivalent to its hash divergence. -/
theorem recreate_decision_policy_witness :
    ensureScale "proj" webScale1 [staleWeb] = .ok staleWebPlan ∧
    serviceActions constHash "proj" webScale1 [staleWeb] RecreateDiverged =
      .ok [.recreateOp staleWeb] ∧
    ((RecreateDiverged = RecreateNever → [ContainerOp.recreateOp staleWeb] = []) ∧
     (RecreateDiverged ≠ RecreateNever → ∀ c ∈ staleWebPlan.actual,
       (ContainerOp.recreateOp c ∈ [ContainerOp.recreateOp staleWeb] ↔
         (c.configHashLabel ≠ constHash webScale1 ∨ RecreateDiverged = RecreateForce ∨
          lookupAssoc webScale1.extensions extLifecycle = some forceRecreate)))) :=
  ⟨by decide, by decide,
   recreate_decision_policy constHash "proj" webScale1 [staleWeb] RecreateDiverged
     staleWebPlan [.recreateOp staleWeb] (by decide) (by decide)⟩

/-- When every number label parses, the accumulator loop of
`nextContainerNumber` computes the running maximum plus one. -/
theorem nextContainerNumberAux_ok (numOf : Container → Int) :
    ∀ (l : List Container) (m : Int),
      (∀ c ∈ l, atoi c.numberLabel = .ok (numOf c)) →
      nextContainerNumberAux l m =
        .ok ((l.foldl (fun mx c => max mx (numOf c)) m) + 1) := by
  intro l
  induction l with
  | nil => intro m _; rfl
  | cons c rest ih =>
    intro m hall
    have hc := hall c (List.mem_cons_self c rest)
    have hrest : ∀ x ∈ rest, atoi x.numberLabel = .ok (numOf x) :=
      fun x hx => hall x (List.mem_cons_of_mem c hx)
    have hmax : (if numOf c > m then numOf c else m) = max m (numOf c) := by
      rcases lt_or_ge m (numOf c) with hlt | hge
      · rw [if_pos hlt, max_eq_right (le_of_lt hlt)]
      · rw [if_neg (not_lt.mpr hge), max_eq_left hge]
    simp only [nextContainerNumberAux, hc, List.foldl_cons]
    rw [hmax, ih (max m (numOf c)) hrest]

/-- The running maximum bounds its seed and every folded value. -/
theorem foldlMax_le (numOf : Container → Int) :
    ∀ (l : List Container) (m : Int),
      m ≤ l.foldl (fun mx c => max mx (numOf c)) m ∧
      ∀ c ∈ l, numOf c ≤ l.foldl (fun mx c => max mx (numOf c)) m := by
  intro l
  induction l with
  | nil => intro m; exact ⟨le_refl m, by simp⟩
  | cons c rest ih =>
    intro m
    rw [List.foldl_cons]
    refine ⟨le_trans (le_max_left m (numOf c)) (ih (max m (numOf c))).1, ?_⟩
    intro x hx
    rcases List.mem_cons.mp hx with rfl | hx2
    · exact le_trans (le_max_right m (numOf x)) (ih (max m (numOf x))).1
    · exact (ih (max m (numOf c))).2 x hx2

/-- The running maximum is its seed or one of the folded values. -/
theorem foldlMax_attained (numOf : Container → Int) :
    ∀ (l : List Container) (m : Int),
      l.foldl (fun mx c => max mx (numOf c)) m = m ∨
      ∃ c ∈ l, l.foldl (fun mx c => max mx (numOf c)) m = numOf c := by
  intro l
  induction l with
  | nil => intro m; exact Or.inl rfl
  | cons c rest ih =>
    intro m
    rw [List.foldl_cons]
    rcases ih (max m (numOf c)) with he | ⟨c2, hc2, he⟩
    · rcases max_choice m (numOf c) with hm | hm
      · exact Or.inl (by rw [he, hm])
      · exact Or.inr ⟨c, List.mem_cons_self c rest, by rw [he, hm]⟩
    · exact Or.inr ⟨c2, List.mem_cons_of_mem c hc2, he⟩

/-- C1: when the observed non-one-off container count of a service is
below the desired scale, `ensureScale` schedules exactly
`scale - observed` creations, numbered from the maximum existing container
number label plus one, incrementing by one per missing replica, and removes
nothing. -/
theorem ensureScale_scaleUp_numbers
    (pn : String) (service : ServiceConfig) (st : List Container)
    (numOf : Container → Int) (scale : Int)
    (hscale : getScale service = (scale, none))
    (hnum : ∀ c ∈ actualOf service.name st, atoi c.numberLabel = .ok (numOf c))
    (hlt : ((actualOf service.name st).length : Int) < scale) :
    ∃ M : Int,
      (∀ c ∈ actualOf service.name st, numOf c ≤ M) ∧
      (M = 0 ∨ ∃ c ∈ actualOf service.name st, numOf c = M) ∧
      ensureScale pn service st = .ok
        { creations :=
            (List.range (scale - ((actualOf service.name st).length : Int)).toNat).map
              (fun (i : Nat) =>
                { name := getContainerName pn service (M + 1 + (i : Int)),
                  number := M + 1 + (i : Int) }),
          removals := [], actual := actualOf service.name st } := by
  have hnext : nextContainerNumber (actualOf service.name st) =
      .ok ((actualOf service.name st).foldl (fun mx c => max mx (numOf c)) 0 + 1) :=
    nextContainerNumberAux_ok numOf (actualOf service.name st) 0 hnum
  refine ⟨(actualOf service.name st).foldl (fun mx c => max mx (numOf c)) 0,
    (foldlMax_le numOf (actualOf service.name st) 0).2, ?_, ?_⟩
  · rcases foldlMax_attained numOf (actualOf service.name st) 0 with he | ⟨c, hc, he⟩
    · exact Or.inl he
    · exact Or.inr ⟨c, hc, he.symm⟩
  unfold ensureScale
  rw [hscale]
  have hred : (match ((scale, none) : Int × Option String) with
      | (_, some e) => (Except.error e : Except String ScalePlan)
      | (scale, none) =>
        if ((actualOf service.name st).length : Int) < scale then
          match nextContainerNumber (actualOf service.name st) with
          | .error e => .error e
          | .ok next =>
            .ok { creations :=
                    (List.range (scale - ((actualOf service.name st).length : Int)).toNat).map
                      (fun (i : Nat) =>
                        { name := getContainerName pn service (next + (i : Int)),
                          number := next + (i : Int) }),
                  removals := [], actual := actualOf service.name st }
        else if ((actualOf service.name st).length : Int) > scale then
          if scale < 0 then
            .error "panic: runtime error: index out of range"
          else
            .ok { creations := [],
                  removals := (actualOf service.name st).drop scale.toNat,
                  actual := (actualOf service.name st).take scale.toNat }
        else
          .ok { creations := [], removals := [],
                actual := actualOf service.name st }) =
      (if ((actualOf service.name st).length : Int) < scale then
          match nextContainerNumber (actualOf service.name st) with
          | .error e => .error e
          | .ok next =>
            .ok { creations :=
                    (List.range (scale - ((actualOf service.name st).length : Int)).toNat).map
                      (fun (i : Nat) =>
                        { name := getContainerName pn service (next + (i : Int)),
                          number := next + (i : Int) }),
                  removals := [], actual := actualOf service.name st }
        else if ((actualOf service.name st).length : Int) > scale then
          if scale < 0 then
            .error "panic: runtime error: index out of range"
          else
            .ok { creations := [],
                  removals := (actualOf service.name st).drop scale.toNat,
                  actual := (actualOf service.name st).take scale.toNat }
        else
          .ok { creations := [], removals := [],
                actual := actualOf service.name st }) := rfl
  rw [hred, if_pos hlt, hnext]

/-- C1 witness: with containers numbered 1 and 3 remaining after the
removal of container 2 and scale 3, the single scheduled creation is
numbered 4 — number 2 is not reused. -/
theorem ensureScale_scaleUp_numbers_witness :
    getScale webScale3 = (3, none) ∧
    (∀ c ∈ actualOf webScale3.name webAfterRemoval,
      atoi c.numberLabel = .ok (webNumOf c)) ∧
    ((actualOf webScale3.name webAfterRemoval).length : Int) < 3 ∧
    (∃ M : Int,
      (∀ c ∈ actualOf webScale3.name webAfterRemoval, webNumOf c ≤ M) ∧
      (M = 0 ∨ ∃ c ∈ actualOf webScale3.name webAfterRemoval, webNumOf c = M) ∧
      ensureScale "proj" webScale3 webAfterRemoval = .ok
        { creations :=
            (List.range ((3 : Int) - ((actualOf webScale3.name webAfterRemoval).length : Int)).toNat).map
              (fun (i : Nat) =>
                { name := getContainerName "proj" webScale3 (M + 1 + (i : Int)),
                  number := M + 1 + (i : Int) }),
          removals := [], actual := actualOf webScale3.name webAfterRemoval }) ∧
    ensureScale "proj" webScale3 webAfterRemoval = .ok
      { creations := [{ name := "proj_web_4", number := 4 }],
        removals := [], actual := webAfterRemoval } :=
  ⟨by decide, by decide, by decide,
   ensureScale_scaleUp_numbers "proj" webScale3 webAfterRemoval webNumOf 3
     (by decide) (by decide) (by decide), by decide⟩


theorem actualOf_append (name : String) (l1 l2 : List Container) :
    actualOf name (l1 ++ l2) = actualOf name l1 ++ actualOf name l2 := by
  simp [actualOf, List.filter_append]

theorem actualOf_filter (name : String) (st : List Container) (p : Container → Bool) :
    actualOf name (st.filter p) = (actualOf name st).filter p := by
  unfold actualOf
  rw [List.filter_comm (isService name) p st,
    List.filter_comm isNotOneOff p (st.filter (isService name))]

theorem actualOf_created (service : ServiceConfig) (hash : String)
    (newId : Int → String) (creations : List Creation) :
    actualOf service.name
      (creations.map (fun cr => mkCreatedContainer service hash cr (newId cr.number))) =
    creations.map (fun cr => mkCreatedContainer service hash cr (newId cr.number)) := by
  unfold actualOf
  have h1 : (creations.map (fun cr => mkCreatedContainer service hash cr (newId cr.number))).filter
      (isService service.name) =
      creations.map (fun cr => mkCreatedContainer service hash cr (newId cr.number)) := by
    refine List.filter_eq_self.mpr ?_
    intro x hx
    rcases List.mem_map.mp hx with ⟨cr, _, rfl⟩
    simp [isService, mkCreatedContainer]
  rw [h1]
  refine List.filter_eq_self.mpr ?_
  intro x hx
  rcases List.mem_map.mp hx with ⟨cr, _, rfl⟩
  simp [isNotOneOff, mkCreatedContainer]

theorem nodup_actualOf (name : String) (st : List Container)
    (h : (st.map (fun c => c.id)).Nodup) :
    ((actualOf name st).map (fun c => c.id)).Nodup := by
  have hsub : List.Sublist (actualOf name st) st := by
    unfold actualOf
    exact (List.filter_sublist _).trans (List.filter_sublist _)
  exact h.sublist (hsub.map (fun c => c.id))

theorem filter_drop_removed (A : List Container) (k : Nat)
    (hnd : (A.map (fun c => c.id)).Nodup) :
    A.filter (fun c => !((A.drop k).any (fun r => r.id == c.id))) = A.take k := by
  have hdisj : ∀ x ∈ A.take k, ∀ r ∈ A.drop k, r.id ≠ x.id := by
    intro x hx r hr heq
    have h2 : (A.map (fun c => c.id)) =
        (A.take k).map (fun c => c.id) ++ (A.drop k).map (fun c => c.id) := by
      rw [← List.map_append, List.take_append_drop]
    rw [h2] at hnd
    exact (List.nodup_append.mp hnd).2.2
      (List.mem_map_of_mem (fun c => c.id) hx)
      (List.mem_map.mpr ⟨r, hr, heq⟩)
  have htake : (A.take k).filter (fun c => !((A.drop k).any (fun r => r.id == c.id))) = A.take k := by
    refine List.filter_eq_self.mpr ?_
    intro x hx
    rw [Bool.not_eq_true', List.any_eq_false]
    intro r hr
    simp only [beq_iff_eq]
    exact hdisj x hx r hr
  have hdrop : (A.drop k).filter (fun c => !((A.drop k).any (fun r => r.id == c.id))) = [] := by
    refine List.filter_eq_nil_iff.mpr ?_
    intro r hr
    simp only [Bool.not_eq_true', Bool.not_eq_false]
    exact List.any_eq_true.mpr ⟨r, hr, by simp⟩
  nth_rewrite 2 [← List.take_append_drop k A]
  rw [List.filter_append, htake, hdrop, List.append_nil]

theorem filter_no_removals (l : List Container) :
    l.filter (fun c => !(([] : List Container).any (fun r => r.id == c.id))) = l := by
  refine List.filter_eq_self.mpr ?_
  intro a _
  simp

theorem actualOf_applyScalePlan (service : ServiceConfig) (hash : String)
    (newId : Int → String) (st : List Container) (plan : ScalePlan) :
    actualOf service.name (applyScalePlan service hash newId st plan) =
      (actualOf service.name st).filter
        (fun c => !(plan.removals.any (fun r => r.id == c.id)))
      ++ plan.creations.map (fun cr => mkCreatedContainer service hash cr (newId cr.number)) := by
  unfold applyScalePlan
  rw [actualOf_append, actualOf_filter, actualOf_created]

theorem ensureScale_noop (pn : String) (service : ServiceConfig)
    (st2 : List Container) (scale : Int)
    (hg : getScale service = (scale, none))
    (heq : ((actualOf service.name st2).length : Int) = scale) :
    ensureScale pn service st2 =
      .ok { creations := [], removals := [], actual := actualOf service.name st2 } := by
  unfold ensureScale
  simp only [hg]
  rw [if_neg (by omega), if_neg (by omega)]

theorem ensureScale_idempotent
    (pn : String) (service : ServiceConfig) (st : List Container)
    (plan : ScalePlan) (hash : String) (newId : Int → String)
    (hids : (st.map (fun c => c.id)).Nodup)
    (hok : ensureScale pn service st = .ok plan) :
    ∃ plan2,
      ensureScale pn service (applyScalePlan service hash newId st plan) = .ok plan2 ∧
      plan2.creations = [] ∧ plan2.removals = [] := by
  rcases hgs : getScale service with ⟨scale, err⟩
  unfold ensureScale at hok
  rw [hgs] at hok
  cases err with
  | some e =>
    exact absurd (show (Except.error e : Except String ScalePlan) = .ok plan from hok)
      (by simp)
  | none =>
    have hok2 : (if ((actualOf service.name st).length : Int) < scale then
        match nextContainerNumber (actualOf service.name st) with
        | .error e => (Except.error e : Except String ScalePlan)
        | .ok next =>
          .ok { creations :=
                  (List.range (scale - ((actualOf service.name st).length : Int)).toNat).map
                    (fun (i : Nat) =>
                      { name := getContainerName pn service (next + (i : Int)),
                        number := next + (i : Int) }),
                removals := [], actual := actualOf service.name st }
      else if ((actualOf service.name st).length : Int) > scale then
        if scale < 0 then .error "panic: runtime error: index out of range"
        else .ok { creations := [],
                   removals := (actualOf service.name st).drop scale.toNat,
                   actual := (actualOf service.name st).take scale.toNat }
      else .ok { creations := [], removals := [],
                 actual := actualOf service.name st }) = .ok plan := hok
    clear hok
    by_cases h1 : ((actualOf service.name st).length : Int) < scale
    · rw [if_pos h1] at hok2
      cases hnx : nextContainerNumber (actualOf service.name st) with
      | error e =>
        rw [hnx] at hok2
        exact absurd hok2 (by simp)
      | ok next =>
        rw [hnx] at hok2
        injection hok2 with h
        subst h
        refine ⟨_, ensureScale_noop pn service _ scale hgs ?_, rfl, rfl⟩
        rw [actualOf_applyScalePlan]
        simp only [filter_no_removals]
        simp only [List.length_append, List.length_map, List.length_range]
        omega
    · by_cases h2 : ((actualOf service.name st).length : Int) > scale
      · rw [if_neg h1, if_pos h2] at hok2
        by_cases h3 : scale < 0
        · rw [if_pos h3] at hok2
          exact absurd hok2 (by simp)
        · rw [if_neg h3] at hok2
          injection hok2 with h
          subst h
          refine ⟨_, ensureScale_noop pn service _ scale hgs ?_, rfl, rfl⟩
          rw [actualOf_applyScalePlan]
          simp only [List.map_nil, List.append_nil]
          rw [filter_drop_removed _ _ (nodup_actualOf service.name st hids)]
          rw [List.length_take]
          omega
      · rw [if_neg h1, if_neg h2] at hok2
        injection hok2 with h
        subst h
        refine ⟨_, ensureScale_noop pn service _ scale hgs ?_, rfl, rfl⟩
        rw [actualOf_applyScalePlan]
        simp only [List.map_nil, List.append_nil, filter_no_removals]
        omega

/-- C2 witness: running `ensureScale` on the snapshot obtained by applying
the first run's plan schedules zero creations and zero removals. -/
theorem ensureScale_idempotent_witness :
    ((webAfterRemoval.map (fun c => c.id)).Nodup) ∧
    ensureScale "proj" webScale3 webAfterRemoval = .ok webUpPlan ∧
    (∃ plan2,
      ensureScale "proj" webScale3
        (applyScalePlan webScale3 "h" newIdFn webAfterRemoval webUpPlan) = .ok plan2 ∧
      plan2.creations = [] ∧ plan2.removals = []) :=
  ⟨by decide, by decide,
   ensureScale_idempotent "proj" webScale3 webAfterRemoval webUpPlan "h" newIdFn
     (by decide) (by decide)⟩

end Compose
